import Mathlib

/-!
Verification of the instance-lifecycle reconciler of the gce-backend
(`appengine/gce-backend/instances.py`).

The datastore is modelled as association lists from typed keys to entity
records.  The hierarchy InstanceTemplate → InstanceTemplateRevision →
InstanceGroupManager → Instance is modelled with explicit typed keys; an
Instance key carries the four components `(base_name, revision, zone,
instance_name)` that the Python code joins into a single string id.

Side effects are made explicit: a `World` carries the datastore, the list
of machine events sent via `metrics.send_machine_event`, and a counter of
datastore writes (`put` calls).  Python functions that may raise are
modelled returning a `World × Option Nat` where the second component is
the re-raised `net.Error` status code, `none` meaning a normal return.
The external Compute Control API is a parameter (`ComputeAPI`), modelled
from the interface the spec gives for it.
-/

/-- Key of a models.InstanceTemplate: the template base name. -/
structure TemplateKey where
  base_name : String
deriving DecidableEq, Repr

/-- Key of a models.InstanceTemplateRevision: parent template plus revision. -/
structure RevisionKey where
  parent : TemplateKey
  revision : String
deriving DecidableEq, Repr

/-- Key of a models.InstanceGroupManager: parent revision plus zone. -/
structure IGMKey where
  parent : RevisionKey
  zone : String
deriving DecidableEq, Repr

/-- Key of a models.Instance.  The Python code builds the string id
"base_name revision zone instance_name"; we keep the four components. -/
structure InstanceKey where
  base_name : String
  revision : String
  zone : String
  instance_name : String
deriving DecidableEq, Repr

/-- instances.get_instance_key: deterministic Instance key from the four
components. -/
def get_instance_key (base_name revision zone instance_name : String) : InstanceKey :=
  ⟨base_name, revision, zone, instance_name⟩

/-- instances.get_instance_group_manager_key: the key of the
InstanceGroupManager an Instance belongs to, derived from the first three
components of the Instance key (the Python code splits the string id). -/
def get_instance_group_manager_key (k : InstanceKey) : IGMKey :=
  ⟨⟨⟨k.base_name⟩, k.revision⟩, k.zone⟩

/-- One entry of Instance.pending_metadata_updates: a models.MetadataUpdate
holding the metadata dict written by add_subscription_metadata. -/
structure MetadataUpdate where
  pubsub_service_account : String
  pubsub_subscription : String
  pubsub_subscription_project : String
deriving DecidableEq, Repr

/-- A models.Instance record.  Unset string fields are the empty string
(Python falsy), unset timestamps are `none`; timestamps are Nat. -/
structure Instance where
  key : InstanceKey
  url : String
  hostname : String
  instance_group_manager : IGMKey
  pending_deletion : Bool
  deletion_ts : Option Nat
  lease_expiration_ts : Option Nat
  cataloged : Bool
  pubsub_subscription : String
  pubsub_service_account : String
  pending_metadata_updates : List MetadataUpdate
deriving DecidableEq, Repr

/-- A models.InstanceTemplate record: its drained set holds keys of
drained InstanceTemplateRevisions. -/
structure InstanceTemplate where
  key : TemplateKey
  drained : List RevisionKey
deriving DecidableEq, Repr

/-- A models.InstanceTemplateRevision record: its drained set holds keys
of drained InstanceGroupManagers. -/
structure InstanceTemplateRevision where
  key : RevisionKey
  project : String
  drained : List IGMKey
deriving DecidableEq, Repr

/-- A models.InstanceGroupManager record. -/
structure InstanceGroupManager where
  key : IGMKey
  url : String
  instances : List InstanceKey
deriving DecidableEq, Repr

/-- Lookup in an association list (point-get by key in the entity store). -/
def findVal {α : Type} {β : Type} [DecidableEq α] (k : α) : List (α × β) → Option β
  | [] => none
  | (k2, v) :: rest => if k2 = k then some v else findVal k rest

/-- Write to an association list: replace the entry for the key if
present, append it otherwise. -/
def putAssoc {α : Type} {β : Type} [DecidableEq α] (k : α) (v : β) :
    List (α × β) → List (α × β)
  | [] => [(k, v)]
  | (k2, v2) :: rest =>
    if k2 = k then (k, v) :: rest else (k2, v2) :: putAssoc k v rest

/-- The entity store: one association list per kind. -/
structure Store where
  templates : List (TemplateKey × InstanceTemplate)
  revisions : List (RevisionKey × InstanceTemplateRevision)
  managers : List (IGMKey × InstanceGroupManager)
  instances : List (InstanceKey × Instance)
deriving DecidableEq, Repr

def Store.getTemplate (s : Store) (k : TemplateKey) : Option InstanceTemplate :=
  findVal k s.templates

def Store.getRevision (s : Store) (k : RevisionKey) : Option InstanceTemplateRevision :=
  findVal k s.revisions

def Store.getManager (s : Store) (k : IGMKey) : Option InstanceGroupManager :=
  findVal k s.managers

def Store.getInstance (s : Store) (k : InstanceKey) : Option Instance :=
  findVal k s.instances

/-- Kinds of machine events sent via metrics.send_machine_event. -/
inductive EventKind where
  | CREATED
  | DELETION_PROPOSED
  | DELETION_SCHEDULED
  | DELETION_SUCCEEDED
deriving DecidableEq, Repr

/-- A machine event: kind plus the hostname or instance name it carries. -/
structure Event where
  kind : EventKind
  hostname : String
deriving DecidableEq, Repr

/-- The world the operations act on: the store, the events sent so far,
and the number of datastore writes performed so far. -/
structure World where
  store : Store
  events : List Event
  puts : Nat
deriving DecidableEq, Repr

/-- metrics.send_machine_event: appends an event. -/
def send_machine_event (kind : EventKind) (hostname : String) (w : World) : World :=
  { w with events := w.events ++ [⟨kind, hostname⟩] }

/-- instance.put() for an Instance entity: writes the record under its own
key and counts one datastore write. -/
def World.putInstance (w : World) (inst : Instance) : World :=
  { w with
      store := { w.store with instances := putAssoc inst.key inst w.store.instances },
      puts := w.puts + 1 }

/-- instance_group_manager.put() for an InstanceGroupManager entity. -/
def World.putManager (w : World) (igm : InstanceGroupManager) : World :=
  { w with
      store := { w.store with managers := putAssoc igm.key igm w.store.managers },
      puts := w.puts + 1 }

/-- instances.mark_for_deletion: transactionally marks the instance for
deletion, clearing the lease, only if not already marked; emits
DELETION_PROPOSED on the transition. -/
def mark_for_deletion (key : InstanceKey) (w : World) : World :=
  match w.store.getInstance key with
  | none => w
  | some inst =>
    if inst.pending_deletion then w
    else
      let inst := { inst with lease_expiration_ts := none, pending_deletion := true }
      send_machine_event .DELETION_PROPOSED inst.hostname (w.putInstance inst)

/-- Modelled from the spec: pubsub.full_subscription_name (component not
under src/), the full resource name of a pub/sub subscription; the spec
only requires it to name the subscription, and it is never empty. -/
def full_subscription_name (project subscription : String) : String :=
  "projects/" ++ project ++ "/subscriptions/" ++ subscription

/-- instances.add_subscription_metadata: transactionally records the
subscription fields and queues one metadata update, only if no
subscription is recorded yet (first-write-wins). -/
def add_subscription_metadata (key : InstanceKey)
    (subscription_project subscription service_account : String) (w : World) : World :=
  match w.store.getInstance key with
  | none => w
  | some inst =>
    if inst.pubsub_subscription ≠ "" then w
    else
      let inst := { inst with
        pending_metadata_updates := inst.pending_metadata_updates ++
          [⟨service_account, subscription, subscription_project⟩],
        pubsub_service_account := service_account,
        pubsub_subscription := full_subscription_name subscription_project subscription }
      w.putInstance inst

/-- instances.add_lease_expiration_ts: transactionally updates the lease
expiry only if the new value differs from the stored one. -/
def add_lease_expiration_ts (key : InstanceKey) (lease_expiration_ts : Option Nat)
    (w : World) : World :=
  match w.store.getInstance key with
  | none => w
  | some inst =>
    if inst.lease_expiration_ts = lease_expiration_ts then w
    else w.putInstance { inst with lease_expiration_ts := lease_expiration_ts }

/-- instances.set_deletion_time: transactionally records the time the
deletion RPC was sent, only if not already recorded (first-write-wins);
no-op when the Instance is missing. -/
def set_deletion_time (key : InstanceKey) (ts : Nat) (w : World) : World :=
  match w.store.getInstance key with
  | none => w
  | some inst =>
    match inst.deletion_ts with
    | some _ => w
    | none => w.putInstance { inst with deletion_ts := some ts }

/-- One page of the Compute API list call.  Modelled from the spec's
external interface: a page always has an items list (the instance URLs)
and optionally a continuation token; tokens are modelled as Nat. -/
structure PageResult where
  items : List String
  nextPageToken : Option Nat
deriving DecidableEq, Repr

/-- Outcome of the delete_instances RPC: either a response carrying a
status string, or a raised net.Error carrying an HTTP status code. -/
inductive DeleteRpc where
  | response (status : String)
  | netError (status_code : Nat)
deriving DecidableEq, Repr

/-- The Compute Control API, modelled from the spec's external-interface
section.  Arguments of the list call: project, group name, zone,
max_results, page_token.  Arguments of the delete call: project, group
name, zone, instance URLs. -/
structure ComputeAPI where
  get_instances_in_instance_group :
    String → String → String → Nat → Option Nat → PageResult
  delete_instances : String → String → String → List String → DeleteRpc

/-- Modelled from the spec: instance_group_managers.get_name (module not
under src/), the cloud-side name of the instance group manager derived
from its key components. -/
def get_name (igm : InstanceGroupManager) : String :=
  igm.key.parent.parent.base_name ++ "-" ++ igm.key.parent.revision ++ "-" ++ igm.key.zone

/-- The while loop of instances.fetch: as long as the last page carries a
nextPageToken, request the next page (page size 500) and append its
items.  The loop is given fuel; every theorem about fetch supplies fuel
at least the number of pages the API serves, where the Python loop
terminates. -/
def fetch_loop (api : ComputeAPI) (project name zone : String) :
    Nat → PageResult → List String
  | 0, _ => []
  | fuel + 1, result =>
    match result.nextPageToken with
    | none => []
    | some tok =>
      let r := api.get_instances_in_instance_group project name zone 500 (some tok)
      r.items ++ fetch_loop api project name zone fuel r

/-- instances.fetch: lists the instance URLs of the group of the given
InstanceGroupManager, page by page.  Missing manager, empty manager URL,
missing ancestor revision or empty revision project are logged and give
the empty list without touching the API. -/
def fetch (api : ComputeAPI) (fuel : Nat) (s : Store) (key : IGMKey) : List String :=
  match s.getManager key with
  | none => []
  | some inst =>
    if inst.url = "" then []
    else
      match s.getRevision key.parent with
      | none => []
      | some instance_template_revision =>
        if instance_template_revision.project = "" then []
        else
          let result := api.get_instances_in_instance_group
            instance_template_revision.project (get_name inst) key.zone 500 none
          result.items ++ fetch_loop api instance_template_revision.project
            (get_name inst) key.zone fuel result

/-- Modelled from the spec: gce.extract_instance_name (component not
under src/), the cloud instance name, the final path component of the
instance URL. -/
def extract_instance_name (url : String) : String :=
  ⟨(url.data.reverse.takeWhile (fun c => c ≠ '/')).reverse⟩

/-- models.Instance(key=key, instance_group_manager=..., url=...): a
fresh record with every other field at its default. -/
def Instance.new (k : InstanceKey) (igm : IGMKey) (url : String) : Instance :=
  { key := k, url := url, hostname := "", instance_group_manager := igm,
    pending_deletion := false, deletion_ts := none, lease_expiration_ts := none,
    cataloged := false, pubsub_subscription := "", pubsub_service_account := "",
    pending_metadata_updates := [] }

/-- instances._ensure_entity_exists: the transactional re-check-then-create.
Returns whether a record was written. -/
def ensure_entity_exists_txn (k : InstanceKey) (url : String) (igm : IGMKey)
    (w : World) : World × Bool :=
  match w.store.getInstance k with
  | some _ => (w, false)
  | none => (w.putInstance (Instance.new k igm url), true)

/-- instances.ensure_entity_exists: fast-path existence check, then the
transactional create; emits CREATED with the instance name when a record
was written. -/
def ensure_entity_exists (k : InstanceKey) (url : String) (igm : IGMKey)
    (w : World) : World :=
  match w.store.getInstance k with
  | some _ => w
  | none =>
    let r := ensure_entity_exists_txn k url igm w
    if r.2 then send_machine_event .CREATED (extract_instance_name url) r.1 else r.1

/-- Modelled from the spec: instance_group_managers.set_instances (module
not under src/), which overwrites the manager's instances list with the
given keys (clearing it when the list is empty). -/
def set_instances (key : IGMKey) (keys : List InstanceKey) (w : World) : World :=
  match w.store.getManager key with
  | none => w
  | some igm => w.putManager { igm with instances := keys }

/-- Keys of a Python dict built by one pass of insertions: the distinct
elements in first-occurrence order. -/
def dedupKeep : List String → List String
  | [] => []
  | x :: xs => x :: (dedupKeep xs).filter (fun y => y ≠ x)

/-- instances.ensure_entities_exist: fetch the URL list; when empty, clear
the manager's instances list; otherwise create a record per URL (the
bounded-concurrency batch is modelled as a sequential pass in URL order)
and overwrite the manager's instances list with the derived keys. -/
def ensure_entities_exist (api : ComputeAPI) (fuel : Nat) (key : IGMKey)
    (w : World) : World :=
  let urls := fetch api fuel w.store key
  if urls = [] then set_instances key [] w
  else
    let keyFor : String → InstanceKey := fun url =>
      get_instance_key key.parent.parent.base_name key.parent.revision key.zone
        (extract_instance_name url)
    let w := urls.foldl (fun w url => ensure_entity_exists (keyFor url) url key w) w
    set_instances key ((dedupKeep urls).map keyFor) w

/-- instances._delete: no-op when deletion_ts is already set; otherwise
issue the delete RPC.  On status DONE, record the deletion time and emit
DELETION_SCHEDULED; on another status, log only; on a net.Error with
status code 400, record the deletion time and emit DELETION_SUCCEEDED;
any other net.Error is re-raised (second component some code). -/
def delete_rpc (api : ComputeAPI) (now : Nat)
    (instance_template_revision : InstanceTemplateRevision)
    (instance_group_manager : InstanceGroupManager) (inst : Instance)
    (w : World) : World × Option Nat :=
  if inst.deletion_ts.isSome then (w, none)
  else
    match api.delete_instances instance_template_revision.project
        (get_name instance_group_manager) instance_group_manager.key.zone [inst.url] with
    | .response status =>
      if status ≠ "DONE" then (w, none)
      else
        (send_machine_event .DELETION_SCHEDULED inst.hostname
          (set_deletion_time inst.key now w), none)
    | .netError status_code =>
      if status_code = 400 then
        (send_machine_event .DELETION_SUCCEEDED inst.hostname
          (set_deletion_time inst.key now w), none)
      else (w, some status_code)

/-- instances.delete_pending: ancestor walk with guards (missing record,
deletion_ts already set, not pending, URL unset, missing manager or
revision, project unset each log and return), then delegate to _delete. -/
def delete_pending (api : ComputeAPI) (now : Nat) (key : InstanceKey)
    (w : World) : World × Option Nat :=
  match w.store.getInstance key with
  | none => (w, none)
  | some inst =>
    if inst.deletion_ts.isSome then (w, none)
    else if ¬ inst.pending_deletion then (w, none)
    else if inst.url = "" then (w, none)
    else
      match w.store.getManager inst.instance_group_manager with
      | none => (w, none)
      | some instance_group_manager =>
        match w.store.getRevision instance_group_manager.key.parent with
        | none => (w, none)
        | some instance_template_revision =>
          if instance_template_revision.project = "" then (w, none)
          else delete_rpc api now instance_template_revision instance_group_manager inst w

/-- instances.delete_drained: ancestor walk with guards (missing record,
deletion_ts already set, cataloged, URL unset, missing manager, revision
or template, project unset), then the drained-inheritance check: proceed
to _delete only when the manager's key is in the revision's drained set
or the revision's key is in the template's drained set. -/
def delete_drained (api : ComputeAPI) (now : Nat) (key : InstanceKey)
    (w : World) : World × Option Nat :=
  match w.store.getInstance key with
  | none => (w, none)
  | some inst =>
    if inst.deletion_ts.isSome then (w, none)
    else if inst.cataloged then (w, none)
    else if inst.url = "" then (w, none)
    else
      match w.store.getManager inst.instance_group_manager with
      | none => (w, none)
      | some instance_group_manager =>
        match w.store.getRevision instance_group_manager.key.parent with
        | none => (w, none)
        | some instance_template_revision =>
          if instance_template_revision.project = "" then (w, none)
          else
            match w.store.getTemplate instance_template_revision.key.parent with
            | none => (w, none)
            | some instance_template =>
              if instance_group_manager.key ∉ instance_template_revision.drained ∧
                  instance_template_revision.key ∉ instance_template.drained then
                (w, none)
              else delete_rpc api now instance_template_revision instance_group_manager inst w

/-- Number of Instance records stored under a given key. -/
def countKey (s : Store) (k : InstanceKey) : Nat :=
  s.instances.countP (fun p => p.1 == k)

theorem findVal_putAssoc_self {α β : Type} [DecidableEq α] (k : α) (v : β)
    (l : List (α × β)) : findVal k (putAssoc k v l) = some v := by
  induction l with
  | nil => simp [putAssoc, findVal]
  | cons a rest ih =>
    obtain ⟨k2, v2⟩ := a
    by_cases h : k2 = k
    · simp [putAssoc, h, findVal]
    · simp [putAssoc, h, findVal, ih]

theorem putAssoc_of_findVal_none {α β : Type} [DecidableEq α] {k : α} (v : β)
    {l : List (α × β)} (h : findVal k l = none) :
    putAssoc k v l = l ++ [(k, v)] := by
  induction l with
  | nil => simp [putAssoc]
  | cons a rest ih =>
    obtain ⟨k2, v2⟩ := a
    by_cases hk : k2 = k
    · simp [findVal, hk] at h
    · simp only [findVal, if_neg hk] at h
      simp [putAssoc, hk, ih h]

theorem countP_of_findVal_none {α β : Type} [DecidableEq α] {k : α}
    {l : List (α × β)} (h : findVal k l = none) :
    l.countP (fun p => p.1 == k) = 0 := by
  induction l with
  | nil => simp
  | cons a rest ih =>
    obtain ⟨k2, v2⟩ := a
    by_cases hk : k2 = k
    · simp [findVal, hk] at h
    · simp only [findVal, if_neg hk] at h
      simp [List.countP_cons, ih h, hk]

theorem ensure_entity_exists_of_some (w : World) (k : InstanceKey) (url : String)
    (igm : IGMKey) (i : Instance) (h : w.store.getInstance k = some i) :
    ensure_entity_exists k url igm w = w := by
  simp [ensure_entity_exists, h]

/-- C1: processing a fresh instance URL, ensure_entity_exists creates the
record under the deterministic key, leaving exactly one record for that
key and one datastore write; calling it a second time for the same key
and URL changes nothing (no write, no additional record, no event). -/
theorem ensure_entity_exists_idempotent (w : World) (k : InstanceKey) (url : String)
    (igm : IGMKey) (hfresh : w.store.getInstance k = none) :
    (ensure_entity_exists k url igm w).store.getInstance k =
      some (Instance.new k igm url) ∧
    countKey (ensure_entity_exists k url igm w).store k = 1 ∧
    (ensure_entity_exists k url igm w).puts = w.puts + 1 ∧
    ensure_entity_exists k url igm (ensure_entity_exists k url igm w) =
      ensure_entity_exists k url igm w := by
  have h1 : ensure_entity_exists k url igm w =
      send_machine_event .CREATED (extract_instance_name url)
        (w.putInstance (Instance.new k igm url)) := by
    simp [ensure_entity_exists, ensure_entity_exists_txn, hfresh]
  have hkey : (Instance.new k igm url).key = k := rfl
  have hget : (ensure_entity_exists k url igm w).store.getInstance k =
      some (Instance.new k igm url) := by
    simp [h1, send_machine_event, World.putInstance, Store.getInstance, hkey,
      findVal_putAssoc_self]
  refine ⟨hget, ?_, ?_, ?_⟩
  · have hnone : findVal k w.store.instances = none := hfresh
    simp [h1, countKey, send_machine_event, World.putInstance, hkey,
      putAssoc_of_findVal_none _ hnone, List.countP_append,
      countP_of_findVal_none hnone]
  · simp [h1, send_machine_event, World.putInstance]
  · exact ensure_entity_exists_of_some _ _ _ _ _ hget

theorem ensure_entity_exists_idempotent_witness :
    (⟨⟨[], [], [], []⟩, [], 0⟩ : World).store.getInstance ⟨"b", "r", "z", "i"⟩ = none ∧
    countKey (ensure_entity_exists ⟨"b", "r", "z", "i"⟩ "u" ⟨⟨⟨"b"⟩, "r"⟩, "z"⟩
      ⟨⟨[], [], [], []⟩, [], 0⟩).store ⟨"b", "r", "z", "i"⟩ = 1 :=
  ⟨by decide,
   (ensure_entity_exists_idempotent ⟨⟨[], [], [], []⟩, [], 0⟩ ⟨"b", "r", "z", "i"⟩
     "u" ⟨⟨⟨"b"⟩, "r"⟩, "z"⟩ (by decide)).2.1⟩

/-- A concrete Instance key used by the concrete worlds below. -/
def k0 : InstanceKey := ⟨"b", "r", "z", "i"⟩

/-- The InstanceGroupManager key k0 belongs to. -/
def igmk0 : IGMKey := ⟨⟨⟨"b"⟩, "r"⟩, "z"⟩

/-- An Instance already marked for deletion that has since been given a
lease again (reachable: mark_for_deletion then add_lease_expiration_ts). -/
def instMarkedLeased : Instance :=
  { key := k0, url := "u", hostname := "h", instance_group_manager := igmk0,
    pending_deletion := true, deletion_ts := none, lease_expiration_ts := some 5,
    cataloged := false, pubsub_subscription := "", pubsub_service_account := "",
    pending_metadata_updates := [] }

/-- A world holding only instMarkedLeased. -/
def worldMarkedLeased : World :=
  ⟨⟨[], [], [], [(k0, instMarkedLeased)]⟩, [], 0⟩

/-- C3 counterexample: for an existing Instance that is already marked
for deletion and has lease_expiration_ts = some 5, calling
mark_for_deletion twice leaves the lease non-null and emits the
DELETION_PROPOSED event zero times, not exactly once, refuting the claim
for every existing Instance. -/
theorem mark_for_deletion_twice_counterexample :
    ¬ (((mark_for_deletion k0 (mark_for_deletion k0 worldMarkedLeased)).store.getInstance
          k0).map Instance.lease_expiration_ts = some none ∧
       (mark_for_deletion k0 (mark_for_deletion k0 worldMarkedLeased)).events.countP
          (fun e => e.kind == EventKind.DELETION_PROPOSED) = 1) := by
  decide

theorem mark_for_deletion_of_pending (w : World) (k : InstanceKey) (i : Instance)
    (h : w.store.getInstance k = some i) (hp : i.pending_deletion = true) :
    mark_for_deletion k w = w := by
  simp [mark_for_deletion, h, hp]

/-- C3 (amended): for every existing Instance that is not already marked
for deletion, calling mark_for_deletion twice on the same key leaves
pending_deletion = true and lease_expiration_ts = null, performs the
datastore write only on the first call, and emits DELETION_PROPOSED
exactly once, on the transition from unmarked to marked. -/
theorem mark_for_deletion_idempotent (w : World) (k : InstanceKey) (inst : Instance)
    (h : w.store.getInstance k = some inst) (hk : inst.key = k)
    (hp : inst.pending_deletion = false) :
    (mark_for_deletion k w).store.getInstance k =
      some { inst with lease_expiration_ts := none, pending_deletion := true } ∧
    (mark_for_deletion k w).events =
      w.events ++ [⟨.DELETION_PROPOSED, inst.hostname⟩] ∧
    (mark_for_deletion k w).puts = w.puts + 1 ∧
    mark_for_deletion k (mark_for_deletion k w) = mark_for_deletion k w := by
  subst hk
  have h1 : mark_for_deletion inst.key w =
      send_machine_event .DELETION_PROPOSED inst.hostname
        (w.putInstance { inst with lease_expiration_ts := none, pending_deletion := true }) := by
    simp [mark_for_deletion, h, hp]
  have hget : (mark_for_deletion inst.key w).store.getInstance inst.key =
      some { inst with lease_expiration_ts := none, pending_deletion := true } := by
    simp [h1, send_machine_event, World.putInstance, Store.getInstance]
    exact findVal_putAssoc_self _ _ _
  refine ⟨hget, ?_, ?_, ?_⟩
  · simp [h1, send_machine_event, World.putInstance]
  · simp [h1, send_machine_event, World.putInstance]
  · exact mark_for_deletion_of_pending _ _ _ hget rfl

theorem mark_for_deletion_idempotent_witness :
    worldMarkedLeased.store.getInstance k0 = some instMarkedLeased ∧
    ((mark_for_deletion k0
        { store := ⟨[], [], [], [(k0, { instMarkedLeased with pending_deletion := false })]⟩,
          events := [], puts := 0 }).events =
      [⟨.DELETION_PROPOSED, "h"⟩]) :=
  ⟨by decide,
   (mark_for_deletion_idempotent
     { store := ⟨[], [], [], [(k0, { instMarkedLeased with pending_deletion := false })]⟩,
       events := [], puts := 0 }
     k0 { instMarkedLeased with pending_deletion := false }
     (by decide) (by decide) (by decide)).2.1⟩

theorem getInstance_putInstance_of_key (w : World) (i : Instance) (k : InstanceKey)
    (hk : i.key = k) : (w.putInstance i).store.getInstance k = some i := by
  subst hk
  simp [World.putInstance, Store.getInstance, findVal_putAssoc_self]

theorem add_lease_of_ne (w : World) (k : InstanceKey) (i : Instance) (ts : Option Nat)
    (h : w.store.getInstance k = some i) (hne : i.lease_expiration_ts ≠ ts) :
    add_lease_expiration_ts k ts w = w.putInstance { i with lease_expiration_ts := ts } := by
  simp [add_lease_expiration_ts, h, hne]

theorem add_lease_of_eq (w : World) (k : InstanceKey) (i : Instance) (ts : Option Nat)
    (h : w.store.getInstance k = some i) (he : i.lease_expiration_ts = ts) :
    add_lease_expiration_ts k ts w = w := by
  simp [add_lease_expiration_ts, h, he]

/-- C10: add_lease_expiration_ts never consults pending_deletion: on an
existing Instance with pending_deletion = true and a stored lease that
differs from some t, it sets the lease to t with pending_deletion still
true; and the state (pending_deletion = true, non-null lease) is reached
by mark_for_deletion followed by add_lease_expiration_ts. -/
theorem add_lease_expiration_ts_ignores_pending (w : World) (k : InstanceKey)
    (inst : Instance) (t : Nat) (h : w.store.getInstance k = some inst)
    (hk : inst.key = k) :
    (inst.pending_deletion = true → inst.lease_expiration_ts ≠ some t →
      ((add_lease_expiration_ts k (some t) w).store.getInstance k).map
        (fun i => (i.pending_deletion, i.lease_expiration_ts)) = some (true, some t)) ∧
    ((add_lease_expiration_ts k (some t) (mark_for_deletion k w)).store.getInstance k).map
      (fun i => (i.pending_deletion, i.lease_expiration_ts)) = some (true, some t) := by
  subst hk
  constructor
  · intro hp hne
    rw [add_lease_of_ne w inst.key inst (some t) h hne,
      getInstance_putInstance_of_key _ _ _ rfl]
    simp [hp]
  · cases hp : inst.pending_deletion with
    | true =>
      rw [mark_for_deletion_of_pending w inst.key inst h hp]
      by_cases hl : inst.lease_expiration_ts = some t
      · rw [add_lease_of_eq w inst.key inst (some t) h hl, h]
        simp [hp, hl]
      · rw [add_lease_of_ne w inst.key inst (some t) h hl,
          getInstance_putInstance_of_key _ _ _ rfl]
        simp [hp]
    | false =>
      have h1 : mark_for_deletion inst.key w =
          send_machine_event .DELETION_PROPOSED inst.hostname
            (w.putInstance
              { inst with lease_expiration_ts := none, pending_deletion := true }) := by
        simp [mark_for_deletion, h, hp]
      have hget : (mark_for_deletion inst.key w).store.getInstance inst.key =
          some { inst with lease_expiration_ts := none, pending_deletion := true } := by
        rw [h1]
        exact getInstance_putInstance_of_key _ _ _ rfl
      rw [add_lease_of_ne _ inst.key _ (some t) hget (by simp),
        getInstance_putInstance_of_key _ _ _ rfl]
      simp

theorem add_lease_expiration_ts_ignores_pending_witness :
    ((add_lease_expiration_ts k0 (some 7)
        (mark_for_deletion k0 worldMarkedLeased)).store.getInstance k0).map
      (fun i => (i.pending_deletion, i.lease_expiration_ts)) = some (true, some 7) :=
  (add_lease_expiration_ts_ignores_pending worldMarkedLeased k0 instMarkedLeased 7
    (by decide) (by decide)).2

theorem full_subscription_name_ne_empty (p s : String) :
    full_subscription_name p s ≠ "" := by
  intro hcon
  have h2 : (full_subscription_name p s).length = 0 := by rw [hcon]; rfl
  rw [full_subscription_name] at h2
  simp only [String.length_append] at h2
  have h9 : ("projects/" : String).length = 9 := rfl
  have h15 : ("/subscriptions/" : String).length = 15 := rfl
  omega

theorem add_subscription_metadata_of_set (w : World) (k : InstanceKey) (i : Instance)
    (sp sub sa : String) (h : w.store.getInstance k = some i)
    (hs : i.pubsub_subscription ≠ "") :
    add_subscription_metadata k sp sub sa w = w := by
  simp [add_subscription_metadata, h, hs]

/-- C7: add_subscription_metadata has first-write-wins semantics: on an
existing Instance with no recorded subscription it records the
subscription fields, appends exactly one pending metadata update and
performs one write; a second call with any arguments is a no-op, so the
first call's values are retained. -/
theorem add_subscription_metadata_first_write_wins (w : World) (k : InstanceKey)
    (inst : Instance) (sp sub sa sp2 sub2 sa2 : String)
    (h : w.store.getInstance k = some inst) (hk : inst.key = k)
    (hunset : inst.pubsub_subscription = "") :
    (add_subscription_metadata k sp sub sa w).store.getInstance k =
      some { inst with
        pending_metadata_updates := inst.pending_metadata_updates ++ [⟨sa, sub, sp⟩],
        pubsub_service_account := sa,
        pubsub_subscription := full_subscription_name sp sub } ∧
    (add_subscription_metadata k sp sub sa w).puts = w.puts + 1 ∧
    add_subscription_metadata k sp2 sub2 sa2 (add_subscription_metadata k sp sub sa w) =
      add_subscription_metadata k sp sub sa w := by
  subst hk
  have h1 : add_subscription_metadata inst.key sp sub sa w =
      w.putInstance { inst with
        pending_metadata_updates := inst.pending_metadata_updates ++ [⟨sa, sub, sp⟩],
        pubsub_service_account := sa,
        pubsub_subscription := full_subscription_name sp sub } := by
    simp [add_subscription_metadata, h, hunset]
  have hget : (add_subscription_metadata inst.key sp sub sa w).store.getInstance inst.key =
      some { inst with
        pending_metadata_updates := inst.pending_metadata_updates ++ [⟨sa, sub, sp⟩],
        pubsub_service_account := sa,
        pubsub_subscription := full_subscription_name sp sub } := by
    rw [h1]
    exact getInstance_putInstance_of_key _ _ _ rfl
  refine ⟨hget, ?_, ?_⟩
  · simp [h1, World.putInstance]
  · exact add_subscription_metadata_of_set _ _ _ _ _ _ hget
      (full_subscription_name_ne_empty sp sub)

/-- A fresh concrete Instance at k0, as created by discovery. -/
def inst0 : Instance := Instance.new k0 igmk0 "u"

/-- A world holding only inst0. -/
def world0 : World := ⟨⟨[], [], [], [(k0, inst0)]⟩, [], 0⟩

theorem add_subscription_metadata_first_write_wins_witness :
    add_subscription_metadata k0 "p2" "s2" "a2"
        (add_subscription_metadata k0 "p1" "s1" "a1" world0) =
      add_subscription_metadata k0 "p1" "s1" "a1" world0 :=
  (add_subscription_metadata_first_write_wins world0 k0 inst0 "p1" "s1" "a1"
    "p2" "s2" "a2" (by decide) (by decide) (by decide)).2.2

/-- C4: deletion_ts is a write-once terminal marker: set_deletion_time
never changes a non-null deletion_ts and is a no-op on a missing
Instance, and for an Instance whose deletion_ts is set, delete_pending
and delete_drained leave the world unchanged and return normally for
every Compute API (no RPC issued, no event emitted). -/
theorem deletion_ts_write_once (w : World) (api : ComputeAPI) (now ts : Nat)
    (k : InstanceKey) (inst : Instance) (d : Nat)
    (h : w.store.getInstance k = some inst) (hd : inst.deletion_ts = some d) :
    set_deletion_time k ts w = w ∧
    delete_pending api now k w = (w, none) ∧
    delete_drained api now k w = (w, none) ∧
    (∀ k2, w.store.getInstance k2 = none → set_deletion_time k2 ts w = w) := by
  refine ⟨?_, ?_, ?_, ?_⟩
  · simp [set_deletion_time, h, hd]
  · simp [delete_pending, h, hd]
  · simp [delete_drained, h, hd]
  · intro k2 h2
    simp [set_deletion_time, h2]

/-- An Instance whose deletion RPC has already been recorded. -/
def instDeleted : Instance := { inst0 with deletion_ts := some 3 }

/-- A world holding only instDeleted. -/
def worldDeleted : World := ⟨⟨[], [], [], [(k0, instDeleted)]⟩, [], 0⟩

/-- A Compute API whose delete RPC reports DONE and whose list call
serves no instances. -/
def apiDone : ComputeAPI := ⟨fun _ _ _ _ _ => ⟨[], none⟩, fun _ _ _ _ => .response "DONE"⟩

theorem deletion_ts_write_once_witness :
    set_deletion_time k0 7 worldDeleted = worldDeleted ∧
    delete_pending apiDone 0 k0 worldDeleted = (worldDeleted, none) :=
  ⟨(deletion_ts_write_once worldDeleted apiDone 0 7 k0 instDeleted 3 (by decide) rfl).1,
   (deletion_ts_write_once worldDeleted apiDone 0 7 k0 instDeleted 3 (by decide) rfl).2.1⟩

/-- C2: for an Instance with no deletion_ts, a delete RPC raising a
client error with status 400 makes _delete record the deletion timestamp
and emit DELETION_SUCCEEDED (and not DELETION_SCHEDULED); a client error
with any other status code is re-raised with no timestamp recorded and
no event emitted. -/
theorem delete_client_error (api : ComputeAPI) (now : Nat)
    (itr : InstanceTemplateRevision) (igm : InstanceGroupManager)
    (inst : Instance) (w : World)
    (hts : inst.deletion_ts = none)
    (h : w.store.getInstance inst.key = some inst) :
    (api.delete_instances itr.project (get_name igm) igm.key.zone [inst.url] =
        .netError 400 →
      delete_rpc api now itr igm inst w =
        (send_machine_event .DELETION_SUCCEEDED inst.hostname
          (w.putInstance { inst with deletion_ts := some now }), none) ∧
      ((delete_rpc api now itr igm inst w).1.store.getInstance inst.key).map
        Instance.deletion_ts = some (some now) ∧
      (delete_rpc api now itr igm inst w).1.events =
        w.events ++ [⟨.DELETION_SUCCEEDED, inst.hostname⟩]) ∧
    (∀ c, c ≠ 400 →
      api.delete_instances itr.project (get_name igm) igm.key.zone [inst.url] =
        .netError c →
      delete_rpc api now itr igm inst w = (w, some c)) := by
  have hsdt : set_deletion_time inst.key now w =
      w.putInstance { inst with deletion_ts := some now } := by
    simp [set_deletion_time, h, hts]
  constructor
  · intro hrpc
    have h1 : delete_rpc api now itr igm inst w =
        (send_machine_event .DELETION_SUCCEEDED inst.hostname
          (w.putInstance { inst with deletion_ts := some now }), none) := by
      simp [delete_rpc, hts, hrpc, hsdt]
    refine ⟨h1, ?_, ?_⟩
    · rw [h1]
      have hg : ((w.putInstance { inst with deletion_ts := some now }).store.getInstance
          inst.key) = some { inst with deletion_ts := some now } :=
        getInstance_putInstance_of_key _ _ _ rfl
      simp [send_machine_event, hg]
    · rw [h1]
      simp [send_machine_event, World.putInstance]
  · intro c hc hrpc
    simp [delete_rpc, hts, hrpc, hc]

/-- A revision record for igmk0's parent with project p. -/
def itr0 : InstanceTemplateRevision := ⟨⟨⟨"b"⟩, "r"⟩, "p", []⟩

/-- A manager record for igmk0 with the scenario URL g1. -/
def igm0 : InstanceGroupManager := ⟨igmk0, "g1", []⟩

/-- A Compute API whose delete RPC raises a client error with status 400. -/
def api400 : ComputeAPI := ⟨fun _ _ _ _ _ => ⟨[], none⟩, fun _ _ _ _ => .netError 400⟩

theorem delete_client_error_witness :
    (delete_rpc api400 7 itr0 igm0 inst0 world0).1.events =
      [⟨.DELETION_SUCCEEDED, ""⟩] :=
  ((delete_client_error api400 7 itr0 igm0 inst0 world0 rfl (by decide)).1 rfl).2.2

/-- C8: for an Instance with no deletion_ts whose delete RPC returns a
status other than DONE, _delete leaves the world unchanged (no
deletion_ts written, no event emitted) and raises nothing. -/
theorem delete_non_done_status (api : ComputeAPI) (now : Nat)
    (itr : InstanceTemplateRevision) (igm : InstanceGroupManager)
    (inst : Instance) (w : World) (st : String)
    (hts : inst.deletion_ts = none)
    (hrpc : api.delete_instances itr.project (get_name igm) igm.key.zone [inst.url] =
      .response st)
    (hst : st ≠ "DONE") :
    delete_rpc api now itr igm inst w = (w, none) := by
  simp [delete_rpc, hts, hrpc, hst]

/-- A Compute API whose delete RPC reports status PENDING. -/
def apiPending : ComputeAPI :=
  ⟨fun _ _ _ _ _ => ⟨[], none⟩, fun _ _ _ _ => .response "PENDING"⟩

theorem delete_non_done_status_witness :
    delete_rpc apiPending 7 itr0 igm0 inst0 world0 = (world0, none) :=
  delete_non_done_status apiPending 7 itr0 igm0 inst0 world0 "PENDING" rfl rfl
    (by decide)

/-- The drained-inheritance rule on the store: the instance's owning
InstanceGroupManager key is in its revision's drained set, or the
revision's key is in its template's drained set. -/
def drainedRule (s : Store) (inst : Instance) : Prop :=
  ∃ igm itr, s.getManager inst.instance_group_manager = some igm ∧
    s.getRevision igm.key.parent = some itr ∧
    (igm.key ∈ itr.drained ∨
      ∃ it, s.getTemplate itr.key.parent = some it ∧ itr.key ∈ it.drained)

/-- C6: delete_drained takes no action for a cataloged Instance, and no
action for an Instance that satisfies neither drained condition: in both
cases the world is unchanged and the result does not depend on the
Compute API (no delete RPC issued, no event emitted); hence the RPC is
issued only when the instance is not cataloged and the drained rule
holds. -/
theorem delete_drained_guards (api : ComputeAPI) (now : Nat) (k : InstanceKey)
    (w : World) (inst : Instance) (h : w.store.getInstance k = some inst) :
    (inst.cataloged = true → delete_drained api now k w = (w, none)) ∧
    (¬ drainedRule w.store inst → delete_drained api now k w = (w, none)) := by
  constructor
  · intro hc
    cases hdt : inst.deletion_ts with
    | some d => simp [delete_drained, h, hdt]
    | none => simp [delete_drained, h, hdt, hc]
  · intro hnr
    cases hdt : inst.deletion_ts with
    | some d => simp [delete_drained, h, hdt]
    | none =>
      cases hc : inst.cataloged with
      | true => simp [delete_drained, h, hdt, hc]
      | false =>
        by_cases hu : inst.url = ""
        · simp [delete_drained, h, hdt, hc, hu]
        · cases hm : w.store.getManager inst.instance_group_manager with
          | none => simp [delete_drained, h, hdt, hc, hu, hm]
          | some igm =>
            cases hr : w.store.getRevision igm.key.parent with
            | none => simp [delete_drained, h, hdt, hc, hu, hm, hr]
            | some itr =>
              by_cases hp : itr.project = ""
              · simp [delete_drained, h, hdt, hc, hu, hm, hr, hp]
              · cases ht : w.store.getTemplate itr.key.parent with
                | none => simp [delete_drained, h, hdt, hc, hu, hm, hr, hp, ht]
                | some it =>
                  have h1 : igm.key ∉ itr.drained := fun hin =>
                    hnr ⟨igm, itr, hm, hr, Or.inl hin⟩
                  have h2 : itr.key ∉ it.drained := fun hin =>
                    hnr ⟨igm, itr, hm, hr, Or.inr ⟨it, ht, hin⟩⟩
                  simp [delete_drained, h, hdt, hc, hu, hm, hr, hp, ht, h1, h2]

/-- A cataloged Instance belonging to a drained manager. -/
def instCataloged : Instance := { inst0 with cataloged := true }

/-- A world where instCataloged sits in manager igm0 whose key is in the
drained set of its revision. -/
def worldCataloged : World :=
  ⟨⟨[], [(igmk0.parent, { itr0 with drained := [igmk0] })], [(igmk0, igm0)],
    [(k0, instCataloged)]⟩, [], 0⟩

theorem delete_drained_guards_witness :
    delete_drained apiDone 0 k0 worldCataloged = (worldCataloged, none) :=
  (delete_drained_guards apiDone 0 k0 worldCataloged instCataloged (by decide)).1 rfl

/-- C9: each of fetch's precondition failures — missing manager record,
empty manager URL, missing ancestor revision, empty revision project —
yields the empty list, for every Compute API (so without calling it);
fetch is total, so no exception is raised. -/
theorem fetch_precondition_failures (api : ComputeAPI) (fuel : Nat) (s : Store)
    (key : IGMKey) :
    (s.getManager key = none → fetch api fuel s key = []) ∧
    (∀ igm, s.getManager key = some igm → igm.url = "" →
      fetch api fuel s key = []) ∧
    (∀ igm, s.getManager key = some igm → igm.url ≠ "" →
      s.getRevision key.parent = none → fetch api fuel s key = []) ∧
    (∀ igm itr, s.getManager key = some igm → igm.url ≠ "" →
      s.getRevision key.parent = some itr → itr.project = "" →
      fetch api fuel s key = []) := by
  refine ⟨?_, ?_, ?_, ?_⟩
  · intro h
    simp [fetch, h]
  · intro igm h hu
    simp [fetch, h, hu]
  · intro igm h hu hr
    simp [fetch, h, hu, hr]
  · intro igm itr h hu hr hp
    simp [fetch, h, hu, hr, hp]

theorem fetch_precondition_failures_witness :
    fetch apiDone 0 (⟨[], [], [], []⟩ : Store) igmk0 = [] :=
  (fetch_precondition_failures apiDone 0 ⟨[], [], [], []⟩ igmk0).1 rfl

/-- Page i of a finite page list: its items, with a continuation token
to page i+1 when a further page exists. -/
def pageAt (pages : List (List String)) (i : Nat) : PageResult :=
  ⟨pages.getD i [], if i + 1 < pages.length then some (i + 1) else none⟩

/-- A Compute API serving the given finite list of pages for every list
call (a page token is the index of the page it continues to; the first
call, with no token, gets page 0), and the given outcome for every
delete RPC. -/
def pagedApi (pages : List (List String)) (del : DeleteRpc) : ComputeAPI :=
  ⟨fun _ _ _ _ tok => pageAt pages (tok.getD 0), fun _ _ _ _ => del⟩

theorem fetch_loop_pagedApi (pages : List (List String)) (del : DeleteRpc)
    (project name zone : String) :
    ∀ fuel i, pages.length ≤ i + 1 + fuel →
      fetch_loop (pagedApi pages del) project name zone fuel (pageAt pages i) =
        (pages.drop (i + 1)).flatten := by
  intro fuel
  induction fuel with
  | zero =>
    intro i hle
    have hd : pages.drop (i + 1) = [] := List.drop_eq_nil_of_le (by omega)
    simp [fetch_loop, hd]
  | succ fl ih =>
    intro i hle
    by_cases hlt : i + 1 < pages.length
    · have htok : (pageAt pages i).nextPageToken = some (i + 1) := by
        simp [pageAt, hlt]
      have happ : fetch_loop (pagedApi pages del) project name zone (fl + 1)
            (pageAt pages i) =
          (pageAt pages (i + 1)).items ++ fetch_loop (pagedApi pages del) project
            name zone fl (pageAt pages (i + 1)) := by
        simp [fetch_loop, htok, pagedApi]
      rw [happ, ih (i + 1) (by omega)]
      conv_rhs => rw [List.drop_eq_getElem_cons hlt]
      rw [List.flatten_cons]
      simp only [pageAt, List.getD, List.get?_eq_getElem?,
        List.getElem?_eq_getElem hlt, Option.getD_some]
    · have htok : (pageAt pages i).nextPageToken = none := by
        simp [pageAt, hlt]
      have hd : pages.drop (i + 1) = [] := List.drop_eq_nil_of_le (by omega)
      simp [fetch_loop, htok, hd]

theorem getD_zero_append_drop_join (pages : List (List String)) :
    pages.getD 0 [] ++ (pages.drop 1).flatten = pages.flatten := by
  cases pages <;> simp

/-- The two-page scenario store: manager igm0 (url g1) under revision
itr0 (project p). -/
def world5 : World :=
  ⟨⟨[], [(igmk0.parent, itr0)], [(igmk0, igm0)], []⟩, [], 0⟩

/-- The Instance key derived for URL A in the scenario. -/
def keyA : InstanceKey := ⟨"b", "r", "z", "A"⟩

/-- The Instance key derived for URL B in the scenario. -/
def keyB : InstanceKey := ⟨"b", "r", "z", "B"⟩

/-- C5: under fetch's preconditions, fetch on an API serving a finite
page list (pages of size 500, linked by continuation tokens) returns the
concatenation of the pages' instance URLs in page order; in the
two-page scenario with pages [A] and [B], fetch returns [A, B] and
ensure_entities_exist creates exactly two Instance rows (one per derived
key) and sets the manager's instances list to the two derived keys. -/
theorem fetch_paginates (pages : List (List String)) (del : DeleteRpc) (fuel : Nat)
    (s : Store) (key : IGMKey) (igm : InstanceGroupManager)
    (itr : InstanceTemplateRevision)
    (higm : s.getManager key = some igm) (hurl : igm.url ≠ "")
    (hitr : s.getRevision key.parent = some itr) (hproj : itr.project ≠ "")
    (hfuel : pages.length ≤ fuel + 1) :
    fetch (pagedApi pages del) fuel s key = pages.flatten ∧
    fetch (pagedApi [["A"], ["B"]] (.response "DONE")) 1 world5.store igmk0 =
      ["A", "B"] ∧
    (ensure_entities_exist (pagedApi [["A"], ["B"]] (.response "DONE")) 1 igmk0
      world5).store.instances.length = 2 ∧
    countKey (ensure_entities_exist (pagedApi [["A"], ["B"]] (.response "DONE")) 1
      igmk0 world5).store keyA = 1 ∧
    countKey (ensure_entities_exist (pagedApi [["A"], ["B"]] (.response "DONE")) 1
      igmk0 world5).store keyB = 1 ∧
    ((ensure_entities_exist (pagedApi [["A"], ["B"]] (.response "DONE")) 1 igmk0
      world5).store.getManager igmk0).map InstanceGroupManager.instances =
      some [keyA, keyB] := by
  refine ⟨?_, by decide, by decide, by decide, by decide, by decide⟩
  have h1 : fetch (pagedApi pages del) fuel s key =
      (pageAt pages 0).items ++ fetch_loop (pagedApi pages del) itr.project
        (get_name igm) key.zone fuel (pageAt pages 0) := by
    simp [fetch, higm, hurl, hitr, hproj, pagedApi]
  rw [h1, fetch_loop_pagedApi pages del itr.project (get_name igm) key.zone fuel 0
    (by omega)]
  exact getD_zero_append_drop_join pages

theorem fetch_paginates_witness :
    igm0.url ≠ "" ∧
    fetch (pagedApi [["A"], ["B"]] (.response "DONE")) 1 world5.store igmk0 =
      [["A"], ["B"]].flatten :=
  ⟨by decide,
   (fetch_paginates [["A"], ["B"]] (.response "DONE") 1 world5.store igmk0 igm0 itr0
     (by decide) (by decide) (by decide) (by decide) (by decide)).1⟩
